import Mathlib

/-!
Shallow embedding of the SynergySphere backend (src/backend/app) core:
the AccessControl checks (auth.py), the DatabaseManager store operations
(database.py), the NotificationService fanout (notification_service.py),
the task / project / comment routers (routers/tasks.py, routers/projects.py,
routers/comments.py) and the deadline sweep (scheduler.py).

Rows are modelled as returned by the SQL queries in database.py, with
`MemberRowT` carrying exactly the columns of `get_project_members`
(`SELECT u.id, u.name, u.email, pm.role, pm.joined_at`).  Python dict
subscripting on those rows is modelled by `MemberRowT.item`, returning
`none` for an absent key (a Python `KeyError`).  Each fanout method of
`NotificationService` wraps its whole body in `try/except Exception`, so it
is modelled as an exception-aware body returning the effect trace performed
before any uncaught exception together with a raised-flag, and the public
method returns just the trace (the exception is swallowed).

Machine-level concerns (timestamps, SMTP transport) are abstracted: days
are `Nat` day numbers, and an email send is recorded as an attempt effect
(the source's `EmailService.send_email` and the scheduler's `send_email`
both catch internally and never raise).

Store / Mailer failures are injected through a `FaultOracle`:
`membersFails` makes `DatabaseManager.get_project_members` raise inside a
fanout method, `insertFails` makes `DatabaseManager.create_notification`
raise inside `NotificationService.create_notification` (which catches it
and returns `False`), and `mailOk` is the boolean result of a mail send.
-/

namespace Synergy

/-- Row of the `users` table (columns used by the modelled code). -/
structure UserRow where
  id : Int
  name : String
  email : String
  deriving Repr, DecidableEq

/-- Row of the `projects` table. -/
structure ProjectRow where
  id : Int
  name : String
  description : String
  owner_id : Int
  deriving Repr, DecidableEq

/-- Row of the `project_members` table; `joined_at` is a day/order number. -/
structure MembershipRow where
  project_id : Int
  user_id : Int
  role : String
  joined_at : Nat
  deriving Repr, DecidableEq

/-- Row of the `tasks` table (columns used by the modelled code);
`due_date` and `updated_at` are day numbers. -/
structure TaskRow where
  id : Int
  project_id : Int
  title : String
  assignee_id : Option Int
  due_date : Option Nat
  status : String
  updated_at : Nat
  deriving Repr, DecidableEq

/-- Row of the `comments` table. -/
structure CommentRow where
  project_id : Option Int
  task_id : Option Int
  parent_comment_id : Option Int
  author_id : Int
  content : String
  deriving Repr, DecidableEq

/-- Row of the `notifications` table; `created_day` is the calendar day of
`created_at` (what `DATE(created_at)` extracts). -/
structure NotificationRow where
  user_id : Int
  project_id : Option Int
  task_id : Option Int
  title : String
  body : String
  created_day : Nat
  deriving Repr, DecidableEq

/-- The relational store: one list per table. -/
structure Store where
  users : List UserRow
  projects : List ProjectRow
  memberships : List MembershipRow
  tasks : List TaskRow
  comments : List CommentRow
  notifications : List NotificationRow
  deriving Repr, DecidableEq

/-- A Python value, for modelling dict subscripting on query rows. -/
inductive PyVal where
  | vint (i : Int)
  | vstr (s : String)
  deriving Repr, DecidableEq

/-- Row returned by `DatabaseManager.get_project_members`:
`SELECT u.id, u.name, u.email, pm.role, pm.joined_at`. -/
structure MemberRowT where
  id : Int
  name : String
  email : String
  role : String
  joined_at : Nat
  deriving Repr, DecidableEq

/-- Dict subscripting on a `get_project_members` row: `r[key]`.  The row has
exactly the keys selected by the query; any other key (in particular
`"user_id"`, which `notification_service.py` reads) is a `KeyError`,
modelled as `none`. -/
def MemberRowT.item (r : MemberRowT) : String → Option PyVal
  | "id" => some (.vint r.id)
  | "name" => some (.vstr r.name)
  | "email" => some (.vstr r.email)
  | "role" => some (.vstr r.role)
  | "joined_at" => some (.vint (r.joined_at : Int))
  | _ => none

namespace DatabaseManager

/-- Embeds `DatabaseManager.get_user_by_email`: `SELECT * FROM users WHERE email = %s`. -/
def get_user_by_email (s : Store) (email : String) : Option UserRow :=
  s.users.find? (fun u => u.email == email)

/-- Embeds `DatabaseManager.get_user_by_id`: `SELECT * FROM users WHERE id = %s`. -/
def get_user_by_id (s : Store) (user_id : Int) : Option UserRow :=
  s.users.find? (fun u => u.id == user_id)

/-- Embeds `DatabaseManager.get_project_by_id`: joins `projects` with `users` on
`p.owner_id = u.id`, so a project whose owner row is absent is dropped by
the `JOIN` and the query returns no row. -/
def get_project_by_id (s : Store) (project_id : Int) : Option ProjectRow :=
  (s.projects.find? (fun p => p.id == project_id)).bind fun p =>
    if s.users.any (fun u => u.id == p.owner_id) then some p else none

/-- Embeds `DatabaseManager.get_project_members`: joins `project_members` with
`users` on `pm.user_id = u.id` (a membership whose user row is absent is
dropped), selecting `u.id, u.name, u.email, pm.role, pm.joined_at`,
`ORDER BY pm.joined_at`. -/
def get_project_members (s : Store) (project_id : Int) : List MemberRowT :=
  ((s.memberships.filter (fun m => m.project_id == project_id)).filterMap fun m =>
      (s.users.find? (fun u => u.id == m.user_id)).map fun u =>
        MemberRowT.mk u.id u.name u.email m.role m.joined_at).insertionSort
    (fun a b => a.joined_at ≤ b.joined_at)

/-- Embeds `DatabaseManager.create_project`: inserts the project row, then inserts
the owner membership `(project_id, owner_id, 'owner')` in the same logical
operation, and returns the new project id. -/
def create_project (s : Store) (name description : String) (owner_id : Int)
    (now : Nat) : Int × Store :=
  let project_id := (s.projects.map (fun p => p.id)).foldl max 0 + 1
  (project_id,
    { s with
      projects := s.projects ++ [ProjectRow.mk project_id name description owner_id]
      memberships := s.memberships ++ [MembershipRow.mk project_id owner_id "owner" now] })

/-- Embeds `DatabaseManager.add_project_member`:
`INSERT INTO project_members (project_id, user_id, role)`. -/
def add_project_member (s : Store) (project_id user_id : Int) (role : String)
    (now : Nat) : Store :=
  { s with memberships := s.memberships ++ [MembershipRow.mk project_id user_id role now] }

/-- Embeds `DatabaseManager.update_task_status`:
`UPDATE tasks SET status = %s, updated_at = CURRENT_TIMESTAMP WHERE id = %s`. -/
def update_task_status (s : Store) (task_id : Int) (status : String)
    (now : Nat) : Store :=
  { s with tasks := s.tasks.map fun t =>
      if t.id == task_id then { t with status := status, updated_at := now } else t }

/-- Embeds `DatabaseManager.create_notification`:
`INSERT INTO notifications (user_id, project_id, task_id, title, body)`. -/
def create_notification (s : Store) (user_id : Int) (title body : String)
    (project_id task_id : Option Int) (now : Nat) : Store :=
  { s with notifications :=
      s.notifications ++ [NotificationRow.mk user_id project_id task_id title body now] }

/-- Modelled from the spec: `DatabaseManager.get_task_by_id` is invoked by
the task router (src/backend/app/routers/tasks.py, lines 74 and 124) but is
not defined in src/backend/app/database.py; the spec's Store interface (§6)
exposes `get_task(id)`, an atomic read returning the task row by id or
absent. -/
def get_task_by_id (s : Store) (task_id : Int) : Option TaskRow :=
  s.tasks.find? (fun t => t.id == task_id)

end DatabaseManager

/-- A side effect attempted against the Store (an `INSERT` issued for a
notification row) or the Mailer (an email send attempted). -/
inductive Effect where
  | insertRow (user_id : Int) (project_id task_id : Option Int) (title body : String)
  | emailAttempt (toEmail subject : String)
  deriving Repr, DecidableEq

/-- Injected Store / Mailer failures (see the file header). -/
structure FaultOracle where
  membersFails : Bool
  insertFails : Int → Bool
  mailOk : String → Bool

/-- The oracle with no failures. -/
def noFault : FaultOracle :=
  FaultOracle.mk false (fun _ => false) (fun _ => true)

namespace NotificationService

/-- Embeds `NotificationService.create_notification`: issues the insert (the
attempt is recorded in the trace even when the statement fails), catches
any exception from `DatabaseManager.create_notification` and returns a
success flag; it never raises. -/
def create_notification (o : FaultOracle) (user_id : Int) (title body : String)
    (project_id task_id : Option Int) : List Effect × Bool :=
  ([Effect.insertRow user_id project_id task_id title body], !(o.insertFails user_id))

/-- Body of `NotificationService.send_task_assignment_notifications` inside
its `try`: one in-app row to the assignee, then the assignment email (the
mailer returns a flag and never raises), so the body never raises. -/
def assignment_body (o : FaultOracle) (task : TaskRow) (assignee assigner : UserRow)
    (project : ProjectRow) : List Effect × Bool :=
  let tt := task.title
  let pn := project.name
  let e1 := (create_notification o assignee.id "New Task Assigned"
      (s!"You have been assigned to task \"{tt}\" in project \"{pn}\"")
      (some project.id) (some task.id)).1
  (e1 ++ [Effect.emailAttempt assignee.email s!"New Task Assigned: {tt}"], false)

/-- Embeds `NotificationService.send_task_assignment_notifications`: the body under
`try/except Exception`, returning the effects performed. -/
def send_task_assignment_notifications (o : FaultOracle) (task : TaskRow)
    (assignee assigner : UserRow) (project : ProjectRow) : List Effect :=
  (assignment_body o task assignee assigner project).1

/-- Embeds `status_map.get(new_status, ...)` with its default string, in
`send_task_status_notifications`. -/
def status_action (new_status : String) : String :=
  if new_status == "todo" then "moved to To Do"
  else if new_status == "in_progress" then "started working on"
  else if new_status == "done" then "completed"
  else s!"updated status to {new_status}"

/-- The member loop of `send_task_status_notifications`: for each member
row it reads `member['user_id']` (raising `KeyError` if absent, which
aborts the loop), skips the updater, inserts the in-app row, and sends the
status email inside the loop iteration when the new status is `done` and
the member is the project owner. -/
def status_loop (o : FaultOracle) (updater_id owner_id : Int)
    (project_id task_id : Int) (updater_name task_title : String)
    (new_status : String) : List MemberRowT → List Effect × Bool
  | [] => ([], false)
  | r :: rest =>
    match r.item "user_id" with
    | some (.vint uid) =>
      if uid != updater_id then
        let un := updater_name
        let act := status_action new_status
        let tt := task_title
        let e1 := (create_notification o uid "Task Status Update"
            (s!"{un} {act} task \"{tt}\"") (some project_id) (some task_id)).1
        let e2 := if new_status == "done" && uid == owner_id then
            [Effect.emailAttempt r.email s!"Task Status Update: {tt}"] else []
        let (e3, raised) := status_loop o updater_id owner_id project_id task_id
            updater_name task_title new_status rest
        (e1 ++ e2 ++ e3, raised)
      else
        status_loop o updater_id owner_id project_id task_id
          updater_name task_title new_status rest
    | _ => ([], true)

/-- Body of `send_task_status_notifications` inside its `try`: fetch the
project members (a Store failure raises), then run the member loop. -/
def status_body (o : FaultOracle) (s : Store) (task : TaskRow) (updater : UserRow)
    (project : ProjectRow) (new_status : String) : List Effect × Bool :=
  if o.membersFails then ([], true)
  else
    status_loop o updater.id project.owner_id project.id task.id
      updater.name task.title new_status
      (DatabaseManager.get_project_members s project.id)

/-- Embeds `NotificationService.send_task_status_notifications`: the body under
`try/except Exception`, returning the effects performed. -/
def send_task_status_notifications (o : FaultOracle) (s : Store) (task : TaskRow)
    (updater : UserRow) (project : ProjectRow) (new_status : String) : List Effect :=
  (status_body o s task updater project new_status).1

/-- The existing-member loop of `send_project_member_added_notifications`:
reads `member['user_id']` (raising `KeyError` if absent) and notifies
members other than the new member and the adder. -/
def member_added_loop (o : FaultOracle) (new_member_id adder_id : Int)
    (project_id : Int) (new_member_name project_name : String) :
    List MemberRowT → List Effect × Bool
  | [] => ([], false)
  | r :: rest =>
    match r.item "user_id" with
    | some (.vint uid) =>
      if uid != new_member_id && uid != adder_id then
        let nn := new_member_name
        let pn := project_name
        let e1 := (create_notification o uid "New Team Member"
            (s!"{nn} joined project \"{pn}\"") (some project_id) none).1
        let (e2, raised) := member_added_loop o new_member_id adder_id project_id
            new_member_name project_name rest
        (e1 ++ e2, raised)
      else
        member_added_loop o new_member_id adder_id project_id
          new_member_name project_name rest
    | _ => ([], true)

/-- Message body of the "Added to Project" fanout notification:
`f'You have been added to project "{name}" by {adder}'`. -/
def added_to_project_body (project : ProjectRow) (adder : UserRow) : String :=
  let pn := project.name
  let an := adder.name
  s!"You have been added to project \"{pn}\" by {an}"

/-- Body of `send_project_member_added_notifications` inside its `try`:
first the "Added to Project" row to the new member, then fetch the project
members and run the loop. -/
def member_added_body (o : FaultOracle) (s : Store) (project : ProjectRow)
    (new_member adder : UserRow) : List Effect × Bool :=
  let e1 := (create_notification o new_member.id "Added to Project"
      (added_to_project_body project adder) (some project.id) none).1
  if o.membersFails then (e1, true)
  else
    let (e2, raised) := member_added_loop o new_member.id adder.id project.id
      new_member.name project.name (DatabaseManager.get_project_members s project.id)
    (e1 ++ e2, raised)

/-- Embeds `NotificationService.send_project_member_added_notifications`: the body
under `try/except Exception`, returning the effects performed. -/
def send_project_member_added_notifications (o : FaultOracle) (s : Store)
    (project : ProjectRow) (new_member adder : UserRow) : List Effect :=
  (member_added_body o s project new_member adder).1

/-- The member loop of `send_comment_notifications`: reads
`member['user_id']` (raising `KeyError` if absent) and notifies members
other than the comment author. -/
def comment_loop (o : FaultOracle) (author_id : Int) (project_id : Int)
    (task_id : Option Int) (author_name location project_name : String) :
    List MemberRowT → List Effect × Bool
  | [] => ([], false)
  | r :: rest =>
    match r.item "user_id" with
    | some (.vint uid) =>
      if uid != author_id then
        let an := author_name
        let loc := location
        let pn := project_name
        let e1 := (create_notification o uid "New Comment"
            (s!"{an} commented on {loc} in \"{pn}\"") (some project_id) task_id).1
        let (e2, raised) := comment_loop o author_id project_id task_id
            author_name location project_name rest
        (e1 ++ e2, raised)
      else
        comment_loop o author_id project_id task_id author_name location
          project_name rest
    | _ => ([], true)

/-- Body of `send_comment_notifications` inside its `try`: fetch the project
members (a Store failure raises), compute the comment location string, run
the member loop. -/
def comment_body (o : FaultOracle) (s : Store) (author : UserRow)
    (project : ProjectRow) (task : Option TaskRow) : List Effect × Bool :=
  if o.membersFails then ([], true)
  else
    let location := match task with
      | some t => let tt := t.title; s!"task \"{tt}\""
      | none => "project"
    comment_loop o author.id project.id (task.map (fun t => t.id))
      author.name location project.name
      (DatabaseManager.get_project_members s project.id)

/-- Embeds `NotificationService.send_comment_notifications`: the body under
`try/except Exception`, returning the effects performed. -/
def send_comment_notifications (o : FaultOracle) (s : Store) (author : UserRow)
    (project : ProjectRow) (task : Option TaskRow) : List Effect :=
  (comment_body o s author project task).1

end NotificationService

/-- Embeds `auth.check_project_access`: false when the project does not exist
(no exception), true when the user is the project owner, else true iff
`any(member['id'] == user_id)` over the members join. -/
def check_project_access (s : Store) (user_id project_id : Int) : Bool :=
  match DatabaseManager.get_project_by_id s project_id with
  | none => false
  | some project =>
    if project.owner_id == user_id then true
    else (DatabaseManager.get_project_members s project_id).any
      (fun member => member.id == user_id)

/-- Embeds `auth.check_project_admin`: false when the project does not exist, true
when the user is the project owner, else true iff some member row has
`member['id'] == user_id` and `member['role'] in ['admin', 'owner']`. -/
def check_project_admin (s : Store) (user_id project_id : Int) : Bool :=
  match DatabaseManager.get_project_by_id s project_id with
  | none => false
  | some project =>
    if project.owner_id == user_id then true
    else (DatabaseManager.get_project_members s project_id).any
      (fun member => member.id == user_id &&
        (member.role == "admin" || member.role == "owner"))

/-- HTTP-level outcome of an endpoint, by status code class. -/
inductive Resp where
  | ok
  | badRequest (detail : String)
  | forbidden (detail : String)
  | notFound (detail : String)
  deriving Repr, DecidableEq

/-- An observable step of the task-status endpoint: the Store persist of
the new status, the invocation of the status-changed fanout, or an effect
performed inside the fanout. -/
inductive Action where
  | persistStatus (task_id : Int) (new_status : String)
  | fanoutInvoked (task_id : Int) (new_status : String)
  | notify (e : Effect)
  deriving Repr, DecidableEq

/-- The fanout call at routers/tasks.py:145 receives the rows fetched by
`get_project_by_id` / `get_user_by_id`, which may be `None`; subscripting
`None` inside the fanout body raises at once and is caught there, so a
missing row yields an empty effect trace. -/
def send_task_status_opt (o : FaultOracle) (s : Store) (task : TaskRow)
    (updater : Option UserRow) (project : Option ProjectRow)
    (new_status : String) : List Effect :=
  match updater, project with
  | some u, some p => NotificationService.send_task_status_notifications o s task u p new_status
  | _, _ => []

/-- Embeds the `update_task_status` endpoint (routers/tasks.py:108-165): validate the
requested status (`status_update.get('status')`, 400 when absent or not in
`['todo', 'in_progress', 'done']`), fetch the task (404 when absent),
reject a caller who is not the recorded assignee with 403 (`assignee_id`
of `NULL` rejects every caller), persist the new status with a fresh
`updated_at`, then fetch the project and updater rows and invoke the
status-changed fanout. -/
def update_task_status_endpoint (o : FaultOracle) (s : Store) (now : Nat)
    (task_id : Int) (new_status : Option String) (caller : UserRow) :
    Resp × Store × List Action :=
  match new_status with
  | none => (.badRequest "Invalid status", s, [])
  | some st =>
    if !(st == "todo" || st == "in_progress" || st == "done") then
      (.badRequest "Invalid status", s, [])
    else
      match DatabaseManager.get_task_by_id s task_id with
      | none => (.notFound "Task not found", s, [])
      | some task =>
        if task.assignee_id != some caller.id then
          (.forbidden "Only the assigned user can update task status", s, [])
        else
          let s1 := DatabaseManager.update_task_status s task_id st now
          let project := DatabaseManager.get_project_by_id s1 task.project_id
          let updater := DatabaseManager.get_user_by_id s1 caller.id
          let eff := send_task_status_opt o s1 task updater project st
          (.ok, s1,
            .persistStatus task_id st :: .fanoutInvoked task_id st :: eff.map .notify)

/-- Embeds the `add_project_member` endpoint (routers/projects.py:124-183): admin
check (403), user lookup by email (404), already-a-member check over the
members join via `member['id']` (400), insert the membership with the
requested role, then insert a single "Added to Project" notification row
for the added user directly through `DatabaseManager.create_notification`.
No fanout method is invoked and no email is sent. -/
def add_project_member_endpoint (s : Store) (now : Nat) (caller_id : Int)
    (project_id : Int) (req_email req_role : String) :
    Resp × Store × List Effect :=
  if !check_project_admin s caller_id project_id then
    (.forbidden "Only project admins can add members", s, [])
  else
    match DatabaseManager.get_user_by_email s req_email with
    | none => (.notFound "User not found with this email", s, [])
    | some user_to_add =>
      if (DatabaseManager.get_project_members s project_id).any
          (fun member => member.id == user_to_add.id) then
        (.badRequest "User is already a member of this project", s, [])
      else
        let rl := req_role
        let body := s!"You have been added to the project as {rl}"
        let s1 := DatabaseManager.add_project_member s project_id user_to_add.id req_role now
        let s2 := DatabaseManager.create_notification s1 user_to_add.id
          "Added to Project" body (some project_id) none now
        (.ok, s2,
          [Effect.insertRow user_to_add.id (some project_id) none "Added to Project" body])

/-- Python truthiness of an optional integer id (`None` and `0` are falsy),
as tested by `if not project_id and not task_id` in routers/comments.py. -/
def falsyId : Option Int → Bool
  | none => true
  | some i => i == 0

/-- Embeds the `create_comment` endpoint (routers/comments.py:65-103): 400 when both
attachment points are falsy, otherwise insert the comment row and return.
`NotificationService.send_comment_notifications` is never invoked here, so
the endpoint performs no notification or email effect. -/
def create_comment_endpoint (s : Store) (caller_id : Int)
    (project_id task_id : Option Int) (content : String)
    (parent_comment_id : Option Int) : Resp × Store × List Effect :=
  if falsyId project_id && falsyId task_id then
    (.badRequest "Either project_id or task_id must be provided", s, [])
  else
    (.ok,
      { s with comments := s.comments ++
          [CommentRow.mk project_id task_id parent_comment_id caller_id content] },
      [])

/-- Row returned by the deadline query in `check_upcoming_deadlines`
(scheduler.py:53-65): tasks joined with their assignee user row and their
project row. -/
structure SweepTaskRow where
  id : Int
  title : String
  due_date : Nat
  assignee_id : Int
  assignee_name : String
  assignee_email : String
  project_name : String
  deriving Repr, DecidableEq

/-- The deadline query: tasks with `due_date BETWEEN today+1 AND today+3`,
`status != 'done'`, non-null `assignee_id`, inner-joined with `users` on
the assignee and with `projects` on the project. -/
def tasks_due_query (s : Store) (today : Nat) : List SweepTaskRow :=
  s.tasks.filterMap fun t =>
    match t.assignee_id, t.due_date with
    | some a, some d =>
      if today + 1 ≤ d && d ≤ today + 3 && t.status != "done" then
        (s.users.find? (fun u => u.id == a)).bind fun u =>
          (s.projects.find? (fun p => p.id == t.project_id)).map fun p =>
            SweepTaskRow.mk t.id t.title d a u.name u.email p.name
      else none
    | _, _ => none

/-- The per-task de-duplication query of `check_upcoming_deadlines`
(scheduler.py:69-74): a notification for this user and task titled exactly
`'Deadline Reminder'` created on the current calendar day. -/
def reminder_exists (s : Store) (user_id task_id : Int) (today : Nat) : Bool :=
  s.notifications.any fun n =>
    n.user_id == user_id && n.task_id == some task_id &&
      n.title == "Deadline Reminder" && n.created_day == today

/-- Reminder message of the sweep, with
`days_until_due = due_date - today`:
`f'Task "{title}" is due in {days_until_due} day(s)'`. -/
def reminder_body (r : SweepTaskRow) (today : Nat) : String :=
  let days := r.due_date - today
  let tt := r.title
  s!"Task \"{tt}\" is due in {days} day(s)"

/-- Reminder email subject: `f"Deadline Reminder: {title}"`. -/
def reminder_subject (r : SweepTaskRow) : String :=
  let tt := r.title
  s!"Deadline Reminder: {tt}"

/-- The loop of `check_upcoming_deadlines`: for each queried task, skip it
when the de-duplication query finds a row, otherwise insert the reminder
row (threading the Store, so later iterations and later runs see it) and
attempt the reminder email. -/
def sweep_loop (today : Nat) : List SweepTaskRow → Store → Store × List Effect
  | [], s => (s, [])
  | r :: rest, s =>
    if reminder_exists s r.assignee_id r.id today then
      sweep_loop today rest s
    else
      let s1 := DatabaseManager.create_notification s r.assignee_id
        "Deadline Reminder" (reminder_body r today) none (some r.id) today
      let out := sweep_loop today rest s1
      (out.1,
        Effect.insertRow r.assignee_id none (some r.id) "Deadline Reminder"
            (reminder_body r today)
          :: Effect.emailAttempt r.assignee_email (reminder_subject r) :: out.2)

/-- Embeds `check_upcoming_deadlines` (scheduler.py:46-107): run the deadline
query for the window `[today+1, today+3]`, then the per-task loop. -/
def check_upcoming_deadlines (s : Store) (today : Nat) : Store × List Effect :=
  sweep_loop today (tasks_due_query s today) s

/-- Count of `'Deadline Reminder'` rows for one (user, task) pair created
on the given day. -/
def countReminders (s : Store) (user_id task_id : Int) (today : Nat) : Nat :=
  (s.notifications.filter fun n =>
    n.user_id == user_id && n.task_id == some task_id &&
      n.title == "Deadline Reminder" && n.created_day == today).length

/-! Concrete fixtures: project `Alpha` (id 1) owned by user 1, with user 2
a plain member; user 3 exists but is not a member; task 1 in the project is
assigned to user 2 and due on day 7. -/

def uAlice : UserRow := UserRow.mk 1 "Alice" "alice@example.com"

def uBob : UserRow := UserRow.mk 2 "Bob" "bob@example.com"

def uCarol : UserRow := UserRow.mk 3 "Carol" "carol@example.com"

def pAlpha : ProjectRow := ProjectRow.mk 1 "Alpha" "demo" 1

def tSpec : TaskRow := TaskRow.mk 1 1 "Write spec" (some 2) (some 7) "todo" 0

def store1 : Store :=
  Store.mk [uAlice, uBob, uCarol] [pAlpha]
    [MembershipRow.mk 1 1 "owner" 0, MembershipRow.mk 1 2 "member" 1]
    [tSpec] [] []

/-! Basic facts about the member rows and the fanout loops: the rows
returned by `get_project_members` carry no `user_id` key, so every loop of
`notification_service.py` that reads `member['user_id']` raises `KeyError`
on its first row and contributes no effect. -/

/-- A `get_project_members` row has no `user_id` key. -/
theorem MemberRowT.item_user_id (r : MemberRowT) : r.item "user_id" = none := rfl

/-- The status-update member loop performs no effect: on a nonempty row
list it raises `KeyError` at once, on an empty list it does nothing. -/
theorem status_loop_trace (o : FaultOracle) (a b c d : Int) (e f g : String)
    (rows : List MemberRowT) :
    (NotificationService.status_loop o a b c d e f g rows).1 = [] := by
  cases rows <;> rfl

/-- The member-added loop performs no effect (same `KeyError`). -/
theorem member_added_loop_trace (o : FaultOracle) (a b c : Int) (d e : String)
    (rows : List MemberRowT) :
    (NotificationService.member_added_loop o a b c d e rows).1 = [] := by
  cases rows <;> rfl

/-- The comment member loop performs no effect (same `KeyError`). -/
theorem comment_loop_trace (o : FaultOracle) (a b : Int) (c : Option Int)
    (d e f : String) (rows : List MemberRowT) :
    (NotificationService.comment_loop o a b c d e f rows).1 = [] := by
  cases rows <;> rfl

/-- The status-changed fanout as a whole performs no effect, whatever the
store, oracle, task, updater, project or status. -/
theorem status_fanout_nil (o : FaultOracle) (s : Store) (task : TaskRow)
    (updater : UserRow) (project : ProjectRow) (new_status : String) :
    NotificationService.send_task_status_notifications o s task updater project new_status
      = [] := by
  unfold NotificationService.send_task_status_notifications NotificationService.status_body
  split
  · rfl
  · exact status_loop_trace ..

/-- The comment fanout as a whole performs no effect. -/
theorem comment_fanout_nil (o : FaultOracle) (s : Store) (author : UserRow)
    (project : ProjectRow) (task : Option TaskRow) :
    NotificationService.send_comment_notifications o s author project task = [] := by
  unfold NotificationService.send_comment_notifications NotificationService.comment_body
  split
  · rfl
  · exact comment_loop_trace ..

/-- The member-added fanout emits exactly the "Added to Project" row to the
new member, whatever the oracle and store. -/
theorem member_added_fanout_trace (o : FaultOracle) (s : Store)
    (project : ProjectRow) (new_member adder : UserRow) :
    NotificationService.send_project_member_added_notifications o s project new_member adder
      = [Effect.insertRow new_member.id (some project.id) none "Added to Project"
          (NotificationService.added_to_project_body project adder)] := by
  unfold NotificationService.send_project_member_added_notifications
    NotificationService.member_added_body
  split
  · rfl
  · simp [NotificationService.create_notification, member_added_loop_trace]

/-- The fanout wrapper of the status endpoint performs no effect. -/
theorem send_task_status_opt_nil (o : FaultOracle) (s : Store) (task : TaskRow)
    (updater : Option UserRow) (project : Option ProjectRow) (new_status : String) :
    send_task_status_opt o s task updater project new_status = [] := by
  unfold send_task_status_opt
  cases updater <;> cases project <;> simp [status_fanout_nil]

/-- CLAIM C1 (code_bug evidence). The task-status fanout
(`send_task_status_notifications`) creates no in-app notification row and
sends no email, for every input — in particular at the failing input
`store1` (owner 1 and member 2 are both recipients of a `done` update by
user 2, so the claim requires a row and an email for user 1), whose member
list is nonempty. -/
theorem status_update_fanout_emits_nothing :
    (∀ (o : FaultOracle) (s : Store) (task : TaskRow) (updater : UserRow)
      (project : ProjectRow) (new_status : String),
      NotificationService.send_task_status_notifications o s task updater project new_status
        = [])
    ∧ DatabaseManager.get_project_members store1 1 ≠ [] :=
  ⟨fun o s task updater project new_status =>
    status_fanout_nil o s task updater project new_status, by decide⟩

/-- CLAIM C2 (code_bug evidence). At the failing input — project 1 with
existing members X = user 1 (adder) and Y = user 2, new user Z = user 3
added by X — the `add_project_member` endpoint succeeds and creates exactly
one notification row, for Z, with the router's own "Added to Project"
message; no row for Y, no email
(`send_project_member_added_notifications` is never invoked). -/
theorem add_member_creates_single_row_for_new_member_only :
    (add_project_member_endpoint store1 9 1 1 "carol@example.com" "member").1 = Resp.ok
    ∧ (add_project_member_endpoint store1 9 1 1 "carol@example.com" "member").2.2
        = [Effect.insertRow 3 (some 1) none "Added to Project"
            "You have been added to the project as member"]
    ∧ (add_project_member_endpoint store1 9 1 1 "carol@example.com" "member").2.1.notifications
        = [NotificationRow.mk 3 (some 1) none "Added to Project"
            "You have been added to the project as member" 9]
    ∧ MembershipRow.mk 1 2 "member" 1 ∈ store1.memberships := by
  decide

/-- CLAIM C7 (code_bug evidence). The comment-create endpoint creates no
notification row and performs no effect at all, for every input; the
(never invoked) comment fanout would also produce no effect; and the
failing input `store1` has a nonempty member list, so the claim requires a
row for the non-author member. -/
theorem comment_creation_emits_no_notifications :
    (∀ (s : Store) (caller_id : Int) (project_id task_id : Option Int)
      (content : String) (parent : Option Int),
      (create_comment_endpoint s caller_id project_id task_id content parent).2.1.notifications
        = s.notifications
      ∧ (create_comment_endpoint s caller_id project_id task_id content parent).2.2 = [])
    ∧ (∀ (o : FaultOracle) (s : Store) (author : UserRow) (project : ProjectRow)
        (task : Option TaskRow),
        NotificationService.send_comment_notifications o s author project task = [])
    ∧ DatabaseManager.get_project_members store1 1 ≠ [] := by
  refine ⟨fun s caller_id project_id task_id content parent => ?_,
    fun o s author project task => comment_fanout_nil o s author project task, by decide⟩
  unfold create_comment_endpoint
  split <;> simp

/-! Email-vs-row ordering within one fanout event. -/

/-- Whether an effect is an email attempt. -/
def Effect.isEmail : Effect → Bool
  | .emailAttempt _ _ => true
  | _ => false

/-- Whether an effect is an in-app row insert attempt. -/
def Effect.isInsert : Effect → Bool
  | .insertRow _ _ _ _ _ => true
  | _ => false

/-- No email attempt in the trace precedes any in-app row insert attempt. -/
def email_after_rows (tr : List Effect) : Prop :=
  ∀ i j a b, i < j → tr.get? i = some a → tr.get? j = some b →
    a.isEmail = true → b.isInsert = false

/-- The empty trace trivially orders emails after rows. -/
theorem email_after_rows_nil : email_after_rows [] := by
  intro i j a b _ hi _ _
  simp [List.get?] at hi

/-- A two-effect trace whose first effect is not an email orders emails
after rows. -/
theorem email_after_rows_pair (e1 e2 : Effect) (h1 : e1.isEmail = false) :
    email_after_rows [e1, e2] := by
  intro i j a b hij hi hj he
  cases i with
  | zero =>
    simp [List.get?] at hi
    subst hi
    rw [h1] at he
    cases he
  | succ i =>
    cases i with
    | zero =>
      cases j with
      | zero => omega
      | succ j =>
        cases j with
        | zero => omega
        | succ j => simp [List.get?] at hj
    | succ i => simp [List.get?] at hi

/-- CLAIM C6. For the two fanout events that can trigger an email — task
assignment and task status change — no email attempt precedes any in-app
row insert attempt of the same event: the assignment fanout issues its
single row insert and then its email, and the status fanout (which aborts
on the `user_id` `KeyError` before reaching its in-loop email) attempts no
email at all. -/
theorem email_attempted_after_rows (o : FaultOracle) (s : Store) (task : TaskRow)
    (assignee assigner updater : UserRow) (project : ProjectRow) (new_status : String) :
    email_after_rows
      (NotificationService.send_task_assignment_notifications o task assignee assigner project)
    ∧ email_after_rows
      (NotificationService.send_task_status_notifications o s task updater project new_status) := by
  constructor
  · exact email_after_rows_pair _ _ rfl
  · rw [status_fanout_nil]
    exact email_after_rows_nil

/-! Containment of injected Store / Mailer failures. -/

/-- The task-status endpoint is entirely independent of injected fanout
failures. -/
theorem update_endpoint_oracle_free (o o' : FaultOracle) (s : Store) (now : Nat)
    (task_id : Int) (new_status : Option String) (caller : UserRow) :
    update_task_status_endpoint o s now task_id new_status caller
      = update_task_status_endpoint o' s now task_id new_status caller := by
  cases new_status with
  | none => rfl
  | some st =>
    by_cases hv : (!(st == "todo" || st == "in_progress" || st == "done")) = true
    · unfold update_task_status_endpoint
      simp [hv]
    · cases hT : DatabaseManager.get_task_by_id s task_id with
      | none =>
        unfold update_task_status_endpoint
        simp [hv, hT]
      | some t =>
        by_cases hA : (t.assignee_id != some caller.id) = true
        · unfold update_task_status_endpoint
          simp [hv, hT, hA]
        · unfold update_task_status_endpoint
          simp [hv, hT, hA, send_task_status_opt_nil]

/-- CLAIM C9. Store / Mailer failures injected inside the fanout methods
(a raising `get_project_members`, raising notification inserts, failing
mail sends) are invisible to callers: every fanout method produces the
identical effect trace under any two fault oracles (so one recipient's
failed insert never suppresses another recipient's attempt), and the
task-status endpoint — response, resulting store and action trace — is
identical under any two fault oracles, so a notification or email failure
never turns the committed status update into a reported failure. -/
theorem fanout_failures_contained (o o' : FaultOracle) (s : Store) (now : Nat)
    (task : TaskRow) (taskOpt : Option TaskRow)
    (assignee assigner updater new_member adder author caller : UserRow)
    (project : ProjectRow) (task_id : Int) (new_status : Option String) (st : String) :
    NotificationService.send_task_assignment_notifications o task assignee assigner project
      = NotificationService.send_task_assignment_notifications o' task assignee assigner project
    ∧ NotificationService.send_task_status_notifications o s task updater project st
      = NotificationService.send_task_status_notifications o' s task updater project st
    ∧ NotificationService.send_project_member_added_notifications o s project new_member adder
      = NotificationService.send_project_member_added_notifications o' s project new_member adder
    ∧ NotificationService.send_comment_notifications o s author project taskOpt
      = NotificationService.send_comment_notifications o' s author project taskOpt
    ∧ update_task_status_endpoint o s now task_id new_status caller
      = update_task_status_endpoint o' s now task_id new_status caller := by
  refine ⟨rfl, ?_, ?_, ?_, update_endpoint_oracle_free o o' s now task_id new_status caller⟩
  · rw [status_fanout_nil, status_fanout_nil]
  · rw [member_added_fanout_trace, member_added_fanout_trace]
  · rw [comment_fanout_nil, comment_fanout_nil]

/-! Ordering of persistence before fanout in the task-status endpoint. -/

/-- Whether an action belongs to the notification fanout (its invocation
or an effect performed inside it). -/
def Action.isFanout : Action → Bool
  | .fanoutInvoked _ _ => true
  | .notify _ => true
  | .persistStatus _ _ => false

/-- The task-status endpoint's action trace is either empty (no successful
transition) or exactly the persist followed by the fanout invocation. -/
theorem update_endpoint_trace_shape (o : FaultOracle) (s : Store) (now : Nat)
    (task_id : Int) (new_status : Option String) (caller : UserRow) :
    (update_task_status_endpoint o s now task_id new_status caller).2.2 = []
    ∨ ∃ st, new_status = some st ∧
        (update_task_status_endpoint o s now task_id new_status caller).2.2
          = [Action.persistStatus task_id st, Action.fanoutInvoked task_id st] := by
  cases new_status with
  | none => exact Or.inl rfl
  | some st =>
    by_cases hv : (!(st == "todo" || st == "in_progress" || st == "done")) = true
    · refine Or.inl ?_
      unfold update_task_status_endpoint
      simp [hv]
    · cases hT : DatabaseManager.get_task_by_id s task_id with
      | none =>
        refine Or.inl ?_
        unfold update_task_status_endpoint
        simp [hv, hT]
      | some t =>
        by_cases hA : (t.assignee_id != some caller.id) = true
        · refine Or.inl ?_
          unfold update_task_status_endpoint
          simp [hv, hT, hA]
        · refine Or.inr ⟨st, rfl, ?_⟩
          unfold update_task_status_endpoint
          simp [hv, hT, hA, send_task_status_opt_nil]

/-- CLAIM C5. In every action trace of the task-status endpoint, any
fanout action (the invocation of `send_task_status_notifications` or an
effect inside it) is strictly preceded by the persist of the requested new
status for that task: the fanout is never invoked before the status update
is persisted. -/
theorem persist_precedes_status_fanout (o : FaultOracle) (s : Store) (now : Nat)
    (task_id : Int) (new_status : Option String) (caller : UserRow) (j : Nat) (a : Action)
    (hj : (update_task_status_endpoint o s now task_id new_status caller).2.2.get? j = some a)
    (ha : a.isFanout = true) :
    ∃ i st, i < j ∧
      (update_task_status_endpoint o s now task_id new_status caller).2.2.get? i
        = some (Action.persistStatus task_id st)
      ∧ new_status = some st := by
  rcases update_endpoint_trace_shape o s now task_id new_status caller with h | ⟨st, hst, h⟩
  · rw [h] at hj
    simp [List.get?] at hj
  · rw [h] at hj
    cases j with
    | zero =>
      simp [List.get?] at hj
      subst hj
      cases ha
    | succ j =>
      cases j with
      | zero =>
        refine ⟨0, st, by omega, ?_, hst⟩
        rw [h]
        rfl
      | succ j => simp [List.get?] at hj

/-- Witness for C5: the concrete successful `done` transition by the
assignee (user 2) on task 1 of `store1` has its fanout invocation at
position 1 of the trace, preceded by the persist at position 0. -/
theorem persist_precedes_status_fanout_witness :
    ∃ i st, i < 1 ∧
      (update_task_status_endpoint noFault store1 5 1 (some "done") uBob).2.2.get? i
        = some (Action.persistStatus 1 st)
      ∧ (some "done" : Option String) = some st :=
  persist_precedes_status_fanout noFault store1 5 1 (some "done") uBob 1
    (Action.fanoutInvoked 1 "done") (by decide) (by decide)

/-- CLAIM C3. For a well-formed status-update request (a requested status
among `todo`/`in_progress`/`done`) on an existing task `t`: the request
succeeds only if `t.assignee_id` is exactly the authenticated caller's id,
and whenever it differs (including a `NULL` assignee, which rejects every
caller) the endpoint returns the 403 authorization-denied response — not a
400 validation response — and leaves the store, hence the task's status,
unchanged. -/
theorem update_task_status_assignee_only (o : FaultOracle) (s : Store) (now : Nat)
    (task_id : Int) (st : String) (caller : UserRow) (t : TaskRow)
    (hst : st = "todo" ∨ st = "in_progress" ∨ st = "done")
    (ht : DatabaseManager.get_task_by_id s task_id = some t) :
    ((update_task_status_endpoint o s now task_id (some st) caller).1 = Resp.ok →
      t.assignee_id = some caller.id)
    ∧ (t.assignee_id ≠ some caller.id →
        update_task_status_endpoint o s now task_id (some st) caller
          = (Resp.forbidden "Only the assigned user can update task status", s, [])) := by
  have hval : (!(st == "todo" || st == "in_progress" || st == "done")) = false := by
    rcases hst with h | h | h <;> subst h <;> rfl
  have hv : ¬((!(st == "todo" || st == "in_progress" || st == "done")) = true) := by
    rw [hval]
    exact Bool.false_ne_true
  by_cases hA : (t.assignee_id != some caller.id) = true
  · have hres : update_task_status_endpoint o s now task_id (some st) caller
        = (Resp.forbidden "Only the assigned user can update task status", s, []) := by
      unfold update_task_status_endpoint
      simp [hv, ht, hA]
    constructor
    · intro hok
      rw [hres] at hok
      cases hok
    · intro
      exact hres
  · have heq : t.assignee_id = some caller.id := by
      have h2 : (t.assignee_id != some caller.id) = false :=
        Bool.eq_false_iff.mpr hA
      exact bne_eq_false_iff_eq.mp h2
    exact ⟨fun _ => heq, fun hne => absurd heq hne⟩

/-- Witness for C3: on `store1`, task 1 is assigned to user 2, and the
project owner user 1 (not the assignee) requesting `done` receives exactly
the 403 response with the store unchanged. -/
theorem update_task_status_assignee_only_witness :
    (((update_task_status_endpoint noFault store1 5 1 (some "done") uAlice).1 = Resp.ok →
      tSpec.assignee_id = some uAlice.id))
    ∧ (tSpec.assignee_id ≠ some uAlice.id →
        update_task_status_endpoint noFault store1 5 1 (some "done") uAlice
          = (Resp.forbidden "Only the assigned user can update task status", store1, [])) :=
  update_task_status_assignee_only noFault store1 5 1 "done" uAlice tSpec
    (Or.inr (Or.inr rfl)) (by decide)

/-! AccessControl: characterisation of the two checks. -/

/-- Referential well-formedness used to relate the SQL joins to the raw
tables: memberships and projects reference existing user rows, and project
ids are unique. -/
def storeWF (s : Store) : Prop :=
  (∀ m ∈ s.memberships, ∃ u ∈ s.users, u.id = m.user_id)
  ∧ (∀ p ∈ s.projects, ∃ u ∈ s.users, u.id = p.owner_id)
  ∧ (s.projects.map (fun p => p.id)).Nodup

/-- Two projects of an id-unique project table with equal ids are equal. -/
theorem eq_of_nodup_project_ids {l : List ProjectRow}
    (h : (l.map (fun p => p.id)).Nodup) :
    ∀ {a b : ProjectRow}, a ∈ l → b ∈ l → a.id = b.id → a = b := by
  induction l with
  | nil => intro a b ha _ _; cases ha
  | cons x xs ih =>
    intro a b ha hb hid
    rw [List.map_cons, List.nodup_cons] at h
    rcases List.mem_cons.mp ha with ha | ha
    · rcases List.mem_cons.mp hb with hb | hb
      · rw [ha, hb]
      · exfalso
        apply h.1
        have hmem : b.id ∈ xs.map (fun p => p.id) := List.mem_map_of_mem (fun p => p.id) hb
        rw [ha] at hid
        rw [hid]
        exact hmem
    · rcases List.mem_cons.mp hb with hb | hb
      · exfalso
        apply h.1
        have hmem : a.id ∈ xs.map (fun p => p.id) := List.mem_map_of_mem (fun p => p.id) ha
        rw [hb] at hid
        rw [← hid]
        exact hmem
      · exact ih h.2 ha hb hid

/-- Membership characterisation of the `get_project_members` join. -/
theorem mem_get_project_members {s : Store} {pid : Int} {r : MemberRowT} :
    r ∈ DatabaseManager.get_project_members s pid ↔
    ∃ m ∈ s.memberships, m.project_id = pid ∧
      ∃ u, s.users.find? (fun x => x.id == m.user_id) = some u ∧
        r = MemberRowT.mk u.id u.name u.email m.role m.joined_at := by
  unfold DatabaseManager.get_project_members
  rw [(List.perm_insertionSort _ _).mem_iff]
  simp only [List.mem_filterMap, List.mem_filter, Option.map_eq_some']
  constructor
  · rintro ⟨m, ⟨hm, hpid⟩, u, hu, hr⟩
    exact ⟨m, hm, by simpa using hpid, u, hu, hr.symm⟩
  · rintro ⟨m, hm, hpid, u, hu, hr⟩
    exact ⟨m, ⟨hm, by simpa using hpid⟩, u, hu, hr.symm⟩

/-- Under referential well-formedness of memberships, an `any` over the
members join testing only the id and role columns coincides with an
existential over the raw membership table. -/
theorem members_any_pred {s : Store} {pid : Int}
    (hwf : ∀ m ∈ s.memberships, ∃ u ∈ s.users, u.id = m.user_id)
    (q : Int → String → Bool) :
    ((DatabaseManager.get_project_members s pid).any (fun r => q r.id r.role) = true) ↔
    ∃ m ∈ s.memberships, m.project_id = pid ∧ q m.user_id m.role = true := by
  rw [List.any_eq_true]
  constructor
  · rintro ⟨r, hr, hq⟩
    obtain ⟨m, hm, hpid, u, hu, hru⟩ := mem_get_project_members.mp hr
    have hid : u.id = m.user_id := by simpa using List.find?_some hu
    refine ⟨m, hm, hpid, ?_⟩
    rw [hru] at hq
    simpa [hid] using hq
  · rintro ⟨m, hm, hpid, hq⟩
    obtain ⟨u, hu, hid⟩ := hwf m hm
    have hsome : (s.users.find? (fun x => x.id == m.user_id)).isSome := by
      rw [List.find?_isSome]
      exact ⟨u, hu, by simp [hid]⟩
    obtain ⟨u', hu'⟩ := Option.isSome_iff_exists.mp hsome
    have hid' : u'.id = m.user_id := by simpa using List.find?_some hu'
    refine ⟨MemberRowT.mk u'.id u'.name u'.email m.role m.joined_at,
      mem_get_project_members.mpr ⟨m, hm, hpid, u', hu', rfl⟩, ?_⟩
    simpa [hid'] using hq

/-- Under referential well-formedness of projects, the owner join of
`get_project_by_id` never drops a row. -/
theorem get_project_by_id_wf {s : Store}
    (hwf : ∀ p ∈ s.projects, ∃ u ∈ s.users, u.id = p.owner_id) (pid : Int) :
    DatabaseManager.get_project_by_id s pid
      = s.projects.find? (fun p => p.id == pid) := by
  unfold DatabaseManager.get_project_by_id
  cases hf : s.projects.find? (fun p => p.id == pid) with
  | none => rfl
  | some p =>
    obtain ⟨u, hu, hid⟩ := hwf p (List.mem_of_find?_eq_some hf)
    have hany : s.users.any (fun x => x.id == p.owner_id) = true := by
      rw [List.any_eq_true]
      exact ⟨u, hu, by simp [hid]⟩
    simp [hany]
    exact ⟨u, hu, hid⟩

/-- CLAIM C4. On a referentially well-formed store:
`check_project_access` is true iff the user owns the project or holds any
membership of it; `check_project_admin` is true iff the user owns the
project or holds a membership with role `admin` or `owner`; both return
`false` (rather than raising) when no project has the requested id; and
both are true for the owner of any existing project. -/
theorem access_control_correct (s : Store) (hwf : storeWF s) (uid pid : Int) :
    (check_project_access s uid pid = true ↔
      ∃ p ∈ s.projects, p.id = pid ∧
        (p.owner_id = uid ∨ ∃ m ∈ s.memberships, m.project_id = pid ∧ m.user_id = uid))
    ∧ (check_project_admin s uid pid = true ↔
      ∃ p ∈ s.projects, p.id = pid ∧
        (p.owner_id = uid ∨ ∃ m ∈ s.memberships, m.project_id = pid ∧ m.user_id = uid ∧
          (m.role = "admin" ∨ m.role = "owner")))
    ∧ ((∀ p ∈ s.projects, p.id ≠ pid) →
        check_project_access s uid pid = false ∧ check_project_admin s uid pid = false)
    ∧ (∀ p ∈ s.projects, p.id = pid → p.owner_id = uid →
        check_project_access s uid pid = true ∧ check_project_admin s uid pid = true) := by
  obtain ⟨hmem, hown, hnd⟩ := hwf
  have hacc : check_project_access s uid pid = true ↔
      ∃ p ∈ s.projects, p.id = pid ∧
        (p.owner_id = uid ∨ ∃ m ∈ s.memberships, m.project_id = pid ∧ m.user_id = uid) := by
    unfold check_project_access
    rw [get_project_by_id_wf hown]
    cases hf : s.projects.find? (fun p => p.id == pid) with
    | none =>
      constructor
      · intro h
        cases h
      · rintro ⟨p, hp, hpid, _⟩
        have := List.find?_eq_none.mp hf p hp
        simp [hpid] at this
    | some p =>
      have hp : p ∈ s.projects := List.mem_of_find?_eq_some hf
      have hpid : p.id = pid := by simpa using List.find?_some hf
      by_cases ho : p.owner_id = uid
      · constructor
        · intro _
          exact ⟨p, hp, hpid, Or.inl ho⟩
        · intro _
          simp [ho]
      · have hbeq : (p.owner_id == uid) = false := by simp [ho]
        simp only [hbeq, Bool.false_eq_true, if_false]
        rw [members_any_pred hmem (fun i _ => i == uid)]
        constructor
        · rintro ⟨m, hm, hmp, hq⟩
          exact ⟨p, hp, hpid, Or.inr ⟨m, hm, hmp, by simpa using hq⟩⟩
        · rintro ⟨p', hp', hpid', ho' | ⟨m, hm, hmp, hu⟩⟩
          · have : p' = p := eq_of_nodup_project_ids hnd hp' hp (hpid'.trans hpid.symm)
            exact absurd (this ▸ ho') ho
          · exact ⟨m, hm, hmp, by simp [hu]⟩
  have hadm : check_project_admin s uid pid = true ↔
      ∃ p ∈ s.projects, p.id = pid ∧
        (p.owner_id = uid ∨ ∃ m ∈ s.memberships, m.project_id = pid ∧ m.user_id = uid ∧
          (m.role = "admin" ∨ m.role = "owner")) := by
    unfold check_project_admin
    rw [get_project_by_id_wf hown]
    cases hf : s.projects.find? (fun p => p.id == pid) with
    | none =>
      constructor
      · intro h
        cases h
      · rintro ⟨p, hp, hpid, _⟩
        have := List.find?_eq_none.mp hf p hp
        simp [hpid] at this
    | some p =>
      have hp : p ∈ s.projects := List.mem_of_find?_eq_some hf
      have hpid : p.id = pid := by simpa using List.find?_some hf
      by_cases ho : p.owner_id = uid
      · constructor
        · intro _
          exact ⟨p, hp, hpid, Or.inl ho⟩
        · intro _
          simp [ho]
      · have hbeq : (p.owner_id == uid) = false := by simp [ho]
        simp only [hbeq, Bool.false_eq_true, if_false]
        rw [members_any_pred hmem (fun i rl => i == uid && (rl == "admin" || rl == "owner"))]
        constructor
        · rintro ⟨m, hm, hmp, hq⟩
          have hq' : m.user_id = uid ∧ (m.role = "admin" ∨ m.role = "owner") := by
            simpa using hq
          exact ⟨p, hp, hpid, Or.inr ⟨m, hm, hmp, hq'.1, hq'.2⟩⟩
        · rintro ⟨p', hp', hpid', ho' | ⟨m, hm, hmp, hu, hrl⟩⟩
          · have : p' = p := eq_of_nodup_project_ids hnd hp' hp (hpid'.trans hpid.symm)
            exact absurd (this ▸ ho') ho
          · refine ⟨m, hm, hmp, ?_⟩
            rcases hrl with h | h <;> simp [hu, h]
  refine ⟨hacc, hadm, ?_, ?_⟩
  · intro hno
    constructor
    · cases hb : check_project_access s uid pid with
      | false => rfl
      | true =>
        obtain ⟨p, hp, hpid, _⟩ := hacc.mp hb
        exact absurd hpid (hno p hp)
    · cases hb : check_project_admin s uid pid with
      | false => rfl
      | true =>
        obtain ⟨p, hp, hpid, _⟩ := hadm.mp hb
        exact absurd hpid (hno p hp)
  · intro p hp hpid howner
    exact ⟨hacc.mpr ⟨p, hp, hpid, Or.inl howner⟩,
      hadm.mpr ⟨p, hp, hpid, Or.inl howner⟩⟩

/-- Witness for C4: the characterisation instantiated on `store1` for user
2 (a plain member of project 1); `storeWF store1` is discharged by
evaluation. -/
theorem access_control_correct_witness :
    (check_project_access store1 2 1 = true ↔
      ∃ p ∈ store1.projects, p.id = 1 ∧
        (p.owner_id = 2 ∨ ∃ m ∈ store1.memberships, m.project_id = 1 ∧ m.user_id = 2))
    ∧ (check_project_admin store1 2 1 = true ↔
      ∃ p ∈ store1.projects, p.id = 1 ∧
        (p.owner_id = 2 ∨ ∃ m ∈ store1.memberships, m.project_id = 1 ∧ m.user_id = 2 ∧
          (m.role = "admin" ∨ m.role = "owner")))
    ∧ ((∀ p ∈ store1.projects, p.id ≠ 1) →
        check_project_access store1 2 1 = false ∧ check_project_admin store1 2 1 = false)
    ∧ (∀ p ∈ store1.projects, p.id = 1 → p.owner_id = 2 →
        check_project_access store1 2 1 = true ∧ check_project_admin store1 2 1 = true) :=
  access_control_correct store1
    (by unfold storeWF; exact ⟨by decide, by decide, by decide⟩) 2 1

/-! DeadlineSweep: idempotence under the per-day de-duplication key. -/

/-- The row inserted by the sweep for a queried task. -/
def reminderRow (r : SweepTaskRow) (today : Nat) : NotificationRow :=
  NotificationRow.mk r.assignee_id none (some r.id) "Deadline Reminder"
    (reminder_body r today) today

/-- Unfolding of the skip branch of the sweep loop. -/
theorem sweep_loop_cons_pos {today : Nat} {r : SweepTaskRow} {s : Store}
    (rest : List SweepTaskRow)
    (hex : reminder_exists s r.assignee_id r.id today = true) :
    sweep_loop today (r :: rest) s = sweep_loop today rest s := by
  conv_lhs => rw [sweep_loop]
  rw [if_pos hex]

/-- Unfolding of the insert branch of the sweep loop. -/
theorem sweep_loop_cons_neg {today : Nat} {r : SweepTaskRow} {s : Store}
    (rest : List SweepTaskRow)
    (hex : ¬ reminder_exists s r.assignee_id r.id today = true) :
    sweep_loop today (r :: rest) s =
      ((sweep_loop today rest (DatabaseManager.create_notification s r.assignee_id
          "Deadline Reminder" (reminder_body r today) none (some r.id) today)).1,
        Effect.insertRow r.assignee_id none (some r.id) "Deadline Reminder"
            (reminder_body r today)
          :: Effect.emailAttempt r.assignee_email (reminder_subject r)
          :: (sweep_loop today rest (DatabaseManager.create_notification s r.assignee_id
              "Deadline Reminder" (reminder_body r today) none (some r.id) today)).2) := by
  conv_lhs => rw [sweep_loop]
  rw [if_neg hex]

/-- The sweep loop touches only the notifications table. -/
theorem sweep_loop_projections (today : Nat) (rows : List SweepTaskRow) (s : Store) :
    (sweep_loop today rows s).1.tasks = s.tasks
    ∧ (sweep_loop today rows s).1.users = s.users
    ∧ (sweep_loop today rows s).1.projects = s.projects
    ∧ (sweep_loop today rows s).1.memberships = s.memberships := by
  induction rows generalizing s with
  | nil => exact ⟨rfl, rfl, rfl, rfl⟩
  | cons r rest ih =>
    by_cases hex : reminder_exists s r.assignee_id r.id today = true
    · rw [sweep_loop_cons_pos rest hex]
      exact ih s
    · rw [sweep_loop_cons_neg rest hex]
      exact ih (DatabaseManager.create_notification s r.assignee_id
        "Deadline Reminder" (reminder_body r today) none (some r.id) today)

/-- The sweep loop only appends notification rows. -/
theorem sweep_loop_notifications_extend (today : Nat) (rows : List SweepTaskRow)
    (s : Store) :
    ∃ ex, (sweep_loop today rows s).1.notifications = s.notifications ++ ex := by
  induction rows generalizing s with
  | nil => exact ⟨[], (List.append_nil _).symm⟩
  | cons r rest ih =>
    by_cases hex : reminder_exists s r.assignee_id r.id today = true
    · rw [sweep_loop_cons_pos rest hex]
      exact ih s
    · rw [sweep_loop_cons_neg rest hex]
      obtain ⟨ex, hx⟩ := ih (DatabaseManager.create_notification s r.assignee_id
        "Deadline Reminder" (reminder_body r today) none (some r.id) today)
      refine ⟨reminderRow r today :: ex, ?_⟩
      rw [hx]
      simp [DatabaseManager.create_notification, reminderRow]

/-- A reminder row that the de-duplication query already sees is still seen
after any further sweep processing. -/
theorem reminder_exists_mono {today : Nat} {s : Store} {u k : Int}
    (rows : List SweepTaskRow) (h : reminder_exists s u k today = true) :
    reminder_exists (sweep_loop today rows s).1 u k today = true := by
  obtain ⟨ex, hx⟩ := sweep_loop_notifications_extend today rows s
  unfold reminder_exists at h ⊢
  rw [hx, List.any_append, h]
  rfl

/-- After inserting the reminder row for a task, the de-duplication query
for that (assignee, task) pair sees it. -/
theorem reminder_exists_insert_self (s : Store) (r : SweepTaskRow) (today : Nat) :
    reminder_exists (DatabaseManager.create_notification s r.assignee_id
        "Deadline Reminder" (reminder_body r today) none (some r.id) today)
      r.assignee_id r.id today = true := by
  unfold reminder_exists DatabaseManager.create_notification
  rw [List.any_append]
  simp

/-- After one pass of the sweep loop, every queried row has its reminder
for the day. -/
theorem sweep_loop_covers (today : Nat) (rows : List SweepTaskRow) (s : Store) :
    ∀ r ∈ rows,
      reminder_exists (sweep_loop today rows s).1 r.assignee_id r.id today = true := by
  induction rows generalizing s with
  | nil => intro r hr; cases hr
  | cons x rest ih =>
    intro r hr
    by_cases hex : reminder_exists s x.assignee_id x.id today = true
    · rw [sweep_loop_cons_pos rest hex]
      rcases List.mem_cons.mp hr with h | h
      · subst h
        exact reminder_exists_mono rest hex
      · exact ih s r h
    · rw [sweep_loop_cons_neg rest hex]
      rcases List.mem_cons.mp hr with h | h
      · subst h
        exact reminder_exists_mono rest (reminder_exists_insert_self s r today)
      · exact ih _ r h

/-- When every queried row already has its reminder for the day, the sweep
loop performs nothing. -/
theorem sweep_loop_noop (today : Nat) (rows : List SweepTaskRow) (s : Store)
    (h : ∀ r ∈ rows, reminder_exists s r.assignee_id r.id today = true) :
    sweep_loop today rows s = (s, []) := by
  induction rows with
  | nil => rfl
  | cons x rest ih =>
    rw [sweep_loop_cons_pos rest (h x (List.mem_cons_self x rest))]
    exact ih (fun r hr => h r (List.mem_cons_of_mem x hr))

/-- The deadline query reads only the tasks, users and projects tables. -/
theorem tasks_due_query_congr {s s' : Store} (today : Nat)
    (ht : s'.tasks = s.tasks) (hu : s'.users = s.users)
    (hp : s'.projects = s.projects) :
    tasks_due_query s' today = tasks_due_query s today := by
  unfold tasks_due_query
  rw [ht, hu, hp]

/-- Effect of inserting one reminder row on the per-pair count. -/
theorem countReminders_insert_reminder (s : Store) (r : SweepTaskRow)
    (today : Nat) (u k : Int) :
    countReminders (DatabaseManager.create_notification s r.assignee_id
        "Deadline Reminder" (reminder_body r today) none (some r.id) today) u k today
      = countReminders s u k today
        + (if (r.assignee_id == u && r.id == k) = true then 1 else 0) := by
  unfold countReminders DatabaseManager.create_notification
  rw [List.filter_append, List.length_append]
  congr 1
  by_cases hb : (r.assignee_id == u && r.id == k) = true
  · rw [if_pos hb]
    have hb' : r.assignee_id = u ∧ r.id = k := by simpa using hb
    simp [List.filter, hb'.1, hb'.2]
  · rw [if_neg hb]
    have hbf : (r.assignee_id == u && r.id == k) = false := by
      cases hh : (r.assignee_id == u && r.id == k)
      · rfl
      · exact absurd hh hb
    simp [List.filter, hbf]

/-- Effect of inserting one reminder row on the de-duplication query for an
arbitrary pair. -/
theorem reminder_exists_insert (s : Store) (r : SweepTaskRow) (today : Nat)
    (u k : Int) :
    reminder_exists (DatabaseManager.create_notification s r.assignee_id
        "Deadline Reminder" (reminder_body r today) none (some r.id) today) u k today
      = (reminder_exists s u k today || (r.assignee_id == u && r.id == k)) := by
  unfold reminder_exists DatabaseManager.create_notification
  rw [List.any_append]
  congr 1
  by_cases hb : (r.assignee_id == u && r.id == k) = true
  · have hb' : r.assignee_id = u ∧ r.id = k := by simpa using hb
    simp [List.any, hb'.1, hb'.2, hb]
  · have hb' : ¬ (r.assignee_id = u ∧ r.id = k) := by
      intro hc
      exact hb (by simp [hc.1, hc.2])
    have hbf : (r.assignee_id == u && r.id == k) = false := by
      cases hh : (r.assignee_id == u && r.id == k)
      · rfl
      · exact absurd hh hb
    rcases not_and_or.mp hb' with h | h <;> simp [List.any, h, hbf]

/-- One pass of the sweep loop adds at most one reminder row per
(user, task) pair, and none at all when the pair was already covered. -/
theorem sweep_loop_count_le (today : Nat) (rows : List SweepTaskRow) (s : Store)
    (u k : Int) :
    countReminders (sweep_loop today rows s).1 u k today ≤
      countReminders s u k today
        + (if reminder_exists s u k today = true then 0 else 1) := by
  induction rows generalizing s with
  | nil => exact Nat.le_add_right _ _
  | cons r rest ih =>
    by_cases hex : reminder_exists s r.assignee_id r.id today = true
    · rw [sweep_loop_cons_pos rest hex]
      exact ih s
    · rw [sweep_loop_cons_neg rest hex]
      dsimp only
      have h1 := ih (DatabaseManager.create_notification s r.assignee_id
        "Deadline Reminder" (reminder_body r today) none (some r.id) today)
      rw [countReminders_insert_reminder, reminder_exists_insert] at h1
      by_cases hmatch : (r.assignee_id == u && r.id == k) = true
      · have huk : r.assignee_id = u ∧ r.id = k := by simpa using hmatch
        have hexs : ¬ reminder_exists s u k today = true := by
          rw [← huk.1, ← huk.2]
          exact hex
        rw [if_neg hexs]
        rw [if_pos hmatch, hmatch] at h1
        simp only [Bool.or_true, eq_self_iff_true, if_true] at h1
        omega
      · have hmf : (r.assignee_id == u && r.id == k) = false := by
          cases hh : (r.assignee_id == u && r.id == k)
          · rfl
          · exact absurd hh hmatch
        rw [if_neg hmatch, hmf, Bool.or_false] at h1
        omega

/-- CLAIM C8. Running the deadline sweep a second time on the same calendar
day over the store left by the first run is a no-op — the de-duplication
query finds each first-run row and skips both the insert and the email —
and a single run adds at most one `'Deadline Reminder'` row per
(user, task) pair for that day, so two sequential same-day runs produce at
most one such row per pair. -/
theorem deadline_sweep_idempotent_per_day (s : Store) (today : Nat) (u k : Int) :
    check_upcoming_deadlines (check_upcoming_deadlines s today).1 today
      = ((check_upcoming_deadlines s today).1, [])
    ∧ countReminders (check_upcoming_deadlines s today).1 u k today
      ≤ countReminders s u k today + 1 := by
  constructor
  · have hproj := sweep_loop_projections today (tasks_due_query s today) s
    have hquery : tasks_due_query (check_upcoming_deadlines s today).1 today
        = tasks_due_query s today :=
      tasks_due_query_congr today hproj.1 hproj.2.1 hproj.2.2.1
    show sweep_loop today (tasks_due_query (check_upcoming_deadlines s today).1 today)
        (check_upcoming_deadlines s today).1 = _
    rw [hquery]
    exact sweep_loop_noop today (tasks_due_query s today)
      (check_upcoming_deadlines s today).1
      (sweep_loop_covers today (tasks_due_query s today) s)
  · unfold check_upcoming_deadlines
    have h := sweep_loop_count_le today (tasks_due_query s today) s u k
    by_cases hex : reminder_exists s u k today = true
    · rw [if_pos hex] at h
      omega
    · rw [if_neg hex] at h
      omega

/-! Owner-membership invariant (C10). -/

/-- Every project has an owner membership matching its `owner_id`. -/
def owner_membership_inv (s : Store) : Prop :=
  ∀ p ∈ s.projects, ∃ m ∈ s.memberships,
    m.project_id = p.id ∧ m.user_id = p.owner_id ∧ m.role = "owner"

/-- COUNTEREXAMPLE for C10. On `store1` (project 1 owned by user 1, whose
only `owner` membership is user 1's), the admin user 1 adds non-member user
3 with requested role `owner`: the endpoint succeeds and the store now
holds two `owner` memberships of project 1, one of them for a user other
than the project's `owner_id` — so `add_project_member` can insert a
second `owner` membership even though it rejects existing members. -/
theorem add_member_second_owner_counterexample :
    (add_project_member_endpoint store1 7 1 1 "carol@example.com" "owner").1 = Resp.ok
    ∧ ((add_project_member_endpoint store1 7 1 1 "carol@example.com" "owner").2.1.memberships.filter
        (fun m => m.project_id == 1 && m.role == "owner")).length = 2
    ∧ ∃ m ∈ (add_project_member_endpoint store1 7 1 1 "carol@example.com" "owner").2.1.memberships,
        m.role = "owner" ∧ m.user_id ≠ pAlpha.owner_id := by
  decide

/-- The add-member endpoint never removes a membership and never touches
the projects table. -/
theorem add_member_endpoint_effects (s : Store) (now : Nat)
    (caller_id project_id : Int) (req_email req_role : String) :
    (add_project_member_endpoint s now caller_id project_id req_email req_role).2.1.projects
      = s.projects
    ∧ ∀ m ∈ s.memberships,
        m ∈ (add_project_member_endpoint s now caller_id project_id req_email req_role).2.1.memberships := by
  unfold add_project_member_endpoint
  by_cases hadm : (!check_project_admin s caller_id project_id) = true
  · rw [if_pos hadm]
    exact ⟨rfl, fun m hm => hm⟩
  · rw [if_neg hadm]
    cases hu : DatabaseManager.get_user_by_email s req_email with
    | none => exact ⟨rfl, fun m hm => hm⟩
    | some uu =>
      dsimp only
      by_cases hmem : ((DatabaseManager.get_project_members s project_id).any
          (fun r => r.id == uu.id)) = true
      · rw [if_pos hmem]
        exact ⟨rfl, fun m hm => hm⟩
      · rw [if_neg hmem]
        refine ⟨rfl, fun m hm => ?_⟩
        show m ∈ s.memberships ++ [MembershipRow.mk project_id uu.id req_role now]
        exact List.mem_append_left _ hm

/-- The task-status endpoint touches neither memberships nor projects. -/
theorem update_endpoint_tables (o : FaultOracle) (s : Store) (now : Nat)
    (task_id : Int) (new_status : Option String) (caller : UserRow) :
    (update_task_status_endpoint o s now task_id new_status caller).2.1.memberships
      = s.memberships
    ∧ (update_task_status_endpoint o s now task_id new_status caller).2.1.projects
      = s.projects := by
  cases new_status with
  | none => exact ⟨rfl, rfl⟩
  | some st =>
    by_cases hv : (!(st == "todo" || st == "in_progress" || st == "done")) = true
    · unfold update_task_status_endpoint
      simp [hv]
    · cases hT : DatabaseManager.get_task_by_id s task_id with
      | none =>
        unfold update_task_status_endpoint
        simp [hv, hT]
      | some t =>
        by_cases hA : (t.assignee_id != some caller.id) = true
        · unfold update_task_status_endpoint
          simp [hv, hT, hA]
        · unfold update_task_status_endpoint
          simp [hv, hT, hA, DatabaseManager.update_task_status]

/-- The comment endpoint touches neither memberships nor projects. -/
theorem comment_endpoint_tables (s : Store) (caller_id : Int)
    (project_id task_id : Option Int) (content : String) (parent : Option Int) :
    (create_comment_endpoint s caller_id project_id task_id content parent).2.1.memberships
      = s.memberships
    ∧ (create_comment_endpoint s caller_id project_id task_id content parent).2.1.projects
      = s.projects := by
  unfold create_comment_endpoint
  split <;> exact ⟨rfl, rfl⟩

/-- CLAIM C10 (amended). `create_project` inserts the project row together
with its `(project_id, owner_id, 'owner')` membership in the same logical
operation; the owner-membership invariant is established by
`create_project` and preserved by every modelled mutation (the add-member
endpoint only appends memberships; the status, comment and sweep
operations do not touch memberships or projects); and the add-member
endpoint rejects, without any mutation, a user who is already a member.
(The unamended uniqueness part fails: see the counterexample — a fresh
member may be added with role `owner`.) -/
theorem owner_membership_invariant (o : FaultOracle) (s : Store) (now today : Nat)
    (name desc : String) (owner caller_id project_id : Int)
    (req_email req_role : String) (u : UserRow) (task_id : Int)
    (new_status : Option String) (caller : UserRow) (cid : Int)
    (cpid ctid : Option Int) (content : String) (parent : Option Int)
    (hinv : owner_membership_inv s) :
    (ProjectRow.mk (DatabaseManager.create_project s name desc owner now).1 name desc owner
        ∈ (DatabaseManager.create_project s name desc owner now).2.projects
      ∧ MembershipRow.mk (DatabaseManager.create_project s name desc owner now).1 owner "owner" now
        ∈ (DatabaseManager.create_project s name desc owner now).2.memberships)
    ∧ owner_membership_inv (DatabaseManager.create_project s name desc owner now).2
    ∧ owner_membership_inv
        (add_project_member_endpoint s now caller_id project_id req_email req_role).2.1
    ∧ owner_membership_inv
        (update_task_status_endpoint o s now task_id new_status caller).2.1
    ∧ owner_membership_inv
        (create_comment_endpoint s cid cpid ctid content parent).2.1
    ∧ owner_membership_inv (check_upcoming_deadlines s today).1
    ∧ (DatabaseManager.get_user_by_email s req_email = some u →
        (DatabaseManager.get_project_members s project_id).any (fun r => r.id == u.id) = true →
        (add_project_member_endpoint s now caller_id project_id req_email req_role).2.1 = s
        ∧ (add_project_member_endpoint s now caller_id project_id req_email req_role).1
            ≠ Resp.ok) := by
  refine ⟨⟨?_, ?_⟩, ?_, ?_, ?_, ?_, ?_, ?_⟩
  · show _ ∈ s.projects ++ [ProjectRow.mk _ name desc owner]
    exact List.mem_append_right _ (List.mem_singleton.mpr rfl)
  · show _ ∈ s.memberships ++ [MembershipRow.mk _ owner "owner" now]
    exact List.mem_append_right _ (List.mem_singleton.mpr rfl)
  · intro p hp
    have hp' : p ∈ s.projects ++
        [ProjectRow.mk (DatabaseManager.create_project s name desc owner now).1 name desc owner] := hp
    rcases List.mem_append.mp hp' with h | h
    · obtain ⟨m, hm, h1, h2, h3⟩ := hinv p h
      exact ⟨m, List.mem_append_left _ hm, h1, h2, h3⟩
    · refine ⟨MembershipRow.mk (DatabaseManager.create_project s name desc owner now).1
        owner "owner" now, List.mem_append_right _ (List.mem_singleton.mpr rfl), ?_⟩
      rw [List.mem_singleton.mp h]
      exact ⟨rfl, rfl, rfl⟩
  · intro p hp
    obtain ⟨hproj, hmono⟩ := add_member_endpoint_effects s now caller_id project_id
      req_email req_role
    rw [hproj] at hp
    obtain ⟨m, hm, h1, h2, h3⟩ := hinv p hp
    exact ⟨m, hmono m hm, h1, h2, h3⟩
  · intro p hp
    obtain ⟨hmem2, hproj2⟩ := update_endpoint_tables o s now task_id new_status caller
    rw [hproj2] at hp
    obtain ⟨m, hm, h1, h2, h3⟩ := hinv p hp
    exact ⟨m, hmem2 ▸ hm, h1, h2, h3⟩
  · intro p hp
    obtain ⟨hmem2, hproj2⟩ := comment_endpoint_tables s cid cpid ctid content parent
    rw [hproj2] at hp
    obtain ⟨m, hm, h1, h2, h3⟩ := hinv p hp
    exact ⟨m, hmem2 ▸ hm, h1, h2, h3⟩
  · intro p hp
    have hproj := sweep_loop_projections today (tasks_due_query s today) s
    have hp' : p ∈ s.projects := hproj.2.2.1 ▸ hp
    obtain ⟨m, hm, h1, h2, h3⟩ := hinv p hp'
    exact ⟨m, hproj.2.2.2 ▸ hm, h1, h2, h3⟩
  · intro hu hmem
    unfold add_project_member_endpoint
    by_cases hadm : (!check_project_admin s caller_id project_id) = true
    · rw [if_pos hadm]
      exact ⟨rfl, nofun⟩
    · rw [if_neg hadm]
      simp only [hu]
      rw [if_pos hmem]
      exact ⟨rfl, nofun⟩

/-- Witness for C10 (amended): instantiated on `store1` with user 2 (an
existing member found by email) as the rejected re-add target; the
invariant hypothesis on `store1` is discharged by evaluation. -/
theorem owner_membership_invariant_witness :
    (ProjectRow.mk (DatabaseManager.create_project store1 "Beta" "x" 2 7).1 "Beta" "x" 2
        ∈ (DatabaseManager.create_project store1 "Beta" "x" 2 7).2.projects
      ∧ MembershipRow.mk (DatabaseManager.create_project store1 "Beta" "x" 2 7).1 2 "owner" 7
        ∈ (DatabaseManager.create_project store1 "Beta" "x" 2 7).2.memberships)
    ∧ owner_membership_inv (DatabaseManager.create_project store1 "Beta" "x" 2 7).2
    ∧ owner_membership_inv
        (add_project_member_endpoint store1 7 1 1 "bob@example.com" "member").2.1
    ∧ owner_membership_inv
        (update_task_status_endpoint noFault store1 7 1 (some "done") uBob).2.1
    ∧ owner_membership_inv
        (create_comment_endpoint store1 2 (some 1) none "hi" none).2.1
    ∧ owner_membership_inv (check_upcoming_deadlines store1 5).1
    ∧ (DatabaseManager.get_user_by_email store1 "bob@example.com" = some uBob →
        (DatabaseManager.get_project_members store1 1).any (fun r => r.id == uBob.id) = true →
        (add_project_member_endpoint store1 7 1 1 "bob@example.com" "member").2.1 = store1
        ∧ (add_project_member_endpoint store1 7 1 1 "bob@example.com" "member").1
            ≠ Resp.ok) :=
  owner_membership_invariant noFault store1 7 5 "Beta" "x" 2 1 1 "bob@example.com"
    "member" uBob 1 (some "done") uBob 2 (some 1) none "hi" none
    (by unfold owner_membership_inv; decide)

end Synergy
